import Mathlib

/-!
Shallow embedding of `manim/cli/init/commands.py`: the config-store update
(`update_cfg`), resolution selection (`select_resolution`), project creation
(the `project` command) and scene insertion (the `scene` command), together
with theorems about their behaviour.
-/

namespace ManimInit

/-- A value of the incoming config mapping (`cfg_dict: dict[str, Any]` in
`update_cfg`): either a scalar, stringified with Python `str`, or a pair such
as the `resolution` tuple. -/
inductive CfgValue where
  | scalar (s : String)
  | pair (a b : Int)
  deriving DecidableEq

/-- Python `str(value)` for the values that occur in this program: a string is
unchanged and a tuple `(a, b)` prints as `"(a, b)"`. -/
def stringify : CfgValue → String
  | .scalar s => s
  | .pair a b => "(" ++ toString a ++ ", " ++ toString b ++ ")"

/-- One configparser section after reading: an ordered key/value list. -/
abbrev CfgSection := List (String × String)

/-- A parsed config store: ordered named sections. -/
abbrev Store := List (String × CfgSection)

def lookupKey : CfgSection → String → Option String
  | [], _ => none
  | (k, v) :: rest, q => if k = q then some v else lookupKey rest q

/-- `section[key] = value` on configparser's ordered mapping: replace in place
when the key is present, append otherwise. -/
def setKey : CfgSection → String → String → CfgSection
  | [], k, v => [(k, v)]
  | (k', v') :: rest, k, v =>
    if k' = k then (k, v) :: rest else (k', v') :: setKey rest k v

/-- Python's `str(value[i])` for a string value: a one-character slice.
(`value[i]` raises `IndexError` past the end of the string; no call site in
the source reaches this case, since the `resolution` value is always a
tuple.) -/
def charAtStr (s : String) (i : Nat) : String :=
  String.mk ((s.data.drop i).take 1)

/-- configparser's default `optionxform`, Python `str.lower`, applied to
option names on every write and read. -/
def lowerKey (k : String) : String :=
  String.mk (k.data.map Char.toLower)

/-- The body of the `for key, value in cfg_dict.items()` loop of `update_cfg`
(commands.py lines 77-82): the `resolution` key writes `pixel_width` and
`pixel_height`, every other key is written directly.  configparser lowercases
option names on write (its default `optionxform`). -/
def applyEntry (sec : CfgSection) (k : String) (v : CfgValue) : CfgSection :=
  if k = "resolution" then
    match v with
    | .pair a b =>
      setKey (setKey sec "pixel_width" (toString a)) "pixel_height" (toString b)
    | .scalar s =>
      setKey (setKey sec "pixel_width" (charAtStr s 0)) "pixel_height" (charAtStr s 1)
  else setKey sec (lowerKey k) (stringify v)

/-- The whole update loop of `update_cfg` over the incoming mapping. -/
def updateSection (sec : CfgSection) : List (String × CfgValue) → CfgSection
  | [] => sec
  | (k, v) :: rest => updateSection (applyEntry sec k v) rest

def lookupSec : Store → String → Option CfgSection
  | [], _ => none
  | (n, sec) :: rest, q => if n = q then some sec else lookupSec rest q

/-- Whether `config["CLI"]`-style access succeeds on the parsed store. -/
def hasSection (store : Store) (n : String) : Bool :=
  (lookupSec store n).isSome

inductive CfgError where
  | missingSection
  deriving DecidableEq

/-- The rewritten store produced by `update_cfg`: the `CLI` section updated in
place, every other section carried over. -/
def storeUpdate (cfg : List (String × CfgValue)) : Store → Store
  | [] => []
  | (n, sec) :: rest =>
    (if n = "CLI" then ("CLI", updateSection sec cfg) else (n, sec)) ::
      storeUpdate cfg rest

/-- `update_cfg(cfg_dict, project_cfg_path)` (commands.py lines 62-85): read
the store, update its `CLI` section in place, rewrite the whole store.
`config["CLI"]` raises (`KeyError`, the spec's `MissingSectionError`) before
anything is written when the section is missing, so the failing case performs
no write at all. -/
def update_cfg (cfg : List (String × CfgValue)) (store : Store) :
    Except CfgError Store :=
  if hasSection store "CLI" then Except.ok (storeUpdate cfg store)
  else Except.error CfgError.missingSection

def lookupStore (store : Store) (n q : String) : Option String :=
  match lookupSec store n with
  | some sec => lookupKey sec q
  | none => none

/-- The value one loop entry of `update_cfg` writes to physical key `q`, when
it writes that key at all. -/
def entryWrite (k : String) (v : CfgValue) (q : String) : Option String :=
  if k = "resolution" then
    if q = "pixel_height" then
      some (match v with | .pair _ b => toString b | .scalar s => charAtStr s 1)
    else if q = "pixel_width" then
      some (match v with | .pair a _ => toString a | .scalar s => charAtStr s 0)
    else none
  else if q = lowerKey k then some (stringify v) else none

/-- The last value the update loop writes to physical key `q`, if any. -/
def finalWrite (q : String) : List (String × CfgValue) → Option String
  | [] => none
  | (k, v) :: rest =>
    match finalWrite q rest with
    | some w => some w
    | none => entryWrite k v q

/-- The physical keys mentioned by the incoming mapping (the `resolution`
entry counts as mentioning `pixel_width` and `pixel_height`). -/
def mentionedKeys : List (String × CfgValue) → List String
  | [] => []
  | (k, _) :: rest =>
    (if k = "resolution" then ["pixel_width", "pixel_height"]
     else [lowerKey k]) ++ mentionedKeys rest

/-- `CFG_DEFAULTS` (commands.py lines 27-33): the default project config;
note that its `resolution` value `(854, 480)` is ordered (width, height). -/
def CFG_DEFAULTS : List (String × CfgValue) :=
  [("frame_rate", CfgValue.scalar "30"),
   ("background_color", CfgValue.scalar "BLACK"),
   ("background_opacity", CfgValue.scalar "1"),
   ("scene_names", CfgValue.scalar "Default"),
   ("resolution", CfgValue.pair 854 480)]

/-- One entry of the external `QUALITIES` catalog: a pixel height and width. -/
structure Quality where
  pixel_height : Int
  pixel_width : Int

/-- Modelled from the spec: the Resolution Catalog (the `QUALITIES` constant
of `manim.constants`, which is not part of the source under scrutiny).  The
spec fixes the `480p` tier at width 854 and height 480 (§8) and states that
the catalog's last entry is a non-concrete tier never offered for selection
(§3, §4.1); only those two facts are used below, so the model lists the
`480p` tier followed by the excluded final entry. -/
def qualitiesSpec : List Quality := [⟨480, 854⟩, ⟨480, 854⟩]

/-- `select_resolution` (commands.py lines 38-59) with the interactive prompt
replaced by the chosen label: build the `(pixel_height, pixel_width)` pairs,
`pop()` the last catalog entry, and return the first remaining option whose
`"{height}p"` label equals the choice. -/
def select_resolution (qualities : List Quality) (choice : String) :
    Option (Int × Int) :=
  let resolution_options :=
    (qualities.map fun q => (q.pixel_height, q.pixel_width)).dropLast
  (resolution_options.filter fun res => (toString res.1 ++ "p") == choice).head?

/-- A file system for the `scene` command: paths with their text contents.
`lookupKey` and `setKey` double as file lookup and whole-file write. -/
abbrev FileSys := List (String × String)

/-- The index of the last occurrence of `c`, Python `str.rfind` with hits
reported from the front. -/
def rfindChar (c : Char) : List Char → Option Nat
  | [] => none
  | a :: as =>
    match rfindChar c as with
    | some j => some (j + 1)
    | none => if a = c then some 0 else none

/-- cpython `PurePath.suffix`: the slice from the last dot of the name, empty
when that dot is absent, leading or trailing. -/
def pySuffix (name : List Char) : List Char :=
  match rfindChar '.' name with
  | some i => if 0 < i ∧ i < name.length - 1 then name.drop i else []
  | none => []

/-- cpython `PurePath.with_suffix` for the suffixes this program builds (they
always start with a dot and contain no separator): strip the old suffix, then
append the new one. -/
def pyWithSuffix (name newSuffix : List Char) : List Char :=
  name.take (name.length - (pySuffix name).length) ++ newSuffix

/-- The target-name computation of the `scene` command (commands.py lines
169-172): a name whose suffix is not `.py` has `.py` appended after the old
suffix via `with_suffix(file_name.suffix + ".py")`. -/
def sceneTargetName (name : List Char) : List Char :=
  if pySuffix name = ".py".data then name
  else pyWithSuffix name (pySuffix name ++ ".py".data)

/-- Explicit-target insertion of the `scene` command (commands.py lines
174-182): append the separator plus the rendered stub to an existing file,
else create the file with that content and call `add_import_statement`.  The
second component lists the paths the import-injection collaborator is invoked
on, in order. -/
def insertScene (fs : FileSys) (target rendered : String) :
    FileSys × List String :=
  match lookupKey fs target with
  | some content => (setKey fs target (content ++ "\n\n\n" ++ rendered), [])
  | none => (setKey fs target ("\n\n\n" ++ rendered), [target])

/-- The no-target branch of the `scene` command (commands.py lines 183-187):
`Path("main.py").open("a")` appends, and append mode creates `main.py` when
it is absent. -/
def sceneDefault (fs : FileSys) (rendered : String) : FileSys :=
  match lookupKey fs "main.py" with
  | some content => setKey fs "main.py" (content ++ "\n\n\n" ++ rendered)
  | none => setKey fs "main.py" ("\n\n\n" ++ rendered)

/-- Whether `pat` begins the text `s`. -/
def leadsList : List Char → List Char → Bool
  | [], _ => true
  | _ :: _, [] => false
  | p :: ps, c :: cs => if p = c then leadsList ps cs else false

/-- Python `text.replace(pat, rep, 1)`: replace the leftmost occurrence of
`pat` by `rep`, returning the text unchanged when there is none. -/
def pyReplaceFirst (pat rep : List Char) : List Char → List Char
  | [] => if leadsList pat [] then rep else []
  | c :: cs =>
    if leadsList pat (c :: cs) then rep ++ (c :: cs).drop pat.length
    else c :: pyReplaceFirst pat rep cs

/-- Whether `pat` occurs somewhere in the text. -/
def occursIn (pat : List Char) : List Char → Bool
  | [] => leadsList pat []
  | c :: cs => leadsList pat (c :: cs) || occursIn pat cs

/-- commands.py line 166: `scene.replace(template_name + "Template",
kwargs["scene_name"], 1)` applied to the loaded stub text. -/
def renderStub (stubText templateName newSceneName : String) : String :=
  String.mk
    (pyReplaceFirst (templateName ++ "Template").data newSceneName.data
      stubText.data)

/-- A mutating step (or the confirmation request) of the `project` command. -/
inductive ProjEffect where
  | mkdirE (name : String)
  | confirmE
  | copyTemplateE (project template : String)
  | writeCfgE (project : String)
  deriving DecidableEq

/-- Terminal outcomes of the `project` command other than normal return. -/
inductive ProjError where
  | alreadyExists
  | aborted
  deriving DecidableEq

/-- The `project` command (commands.py lines 101-143) over an abstract state:
`dirs` is the set of existing directories; the result is the new directory
set, the ordered trace of effects, and the terminal outcome.  An existing
directory prints `Folder ... exists` and stops (the spec's
`AlreadyExistsError`) with no effect; the `--default` path creates the
directory, copies the template and writes the config; the interactive path
creates the directory and asks for confirmation, and on decline
`click.confirm(..., abort=True)` raises `Abort`, leaving the freshly created
directory in place with no template copy and no config write. -/
def runProject (dirs : List String) (projectName templateName : String)
    (defaultSettings confirmAnswer : Bool) :
    List String × List ProjEffect × Option ProjError :=
  if projectName ∈ dirs then (dirs, [], some ProjError.alreadyExists)
  else if defaultSettings then
    (projectName :: dirs,
     [ProjEffect.mkdirE projectName,
      ProjEffect.copyTemplateE projectName templateName,
      ProjEffect.writeCfgE projectName], none)
  else if confirmAnswer then
    (projectName :: dirs,
     [ProjEffect.mkdirE projectName, ProjEffect.confirmE,
      ProjEffect.copyTemplateE projectName templateName,
      ProjEffect.writeCfgE projectName], none)
  else
    (projectName :: dirs,
     [ProjEffect.mkdirE projectName, ProjEffect.confirmE],
     some ProjError.aborted)

/-- A concrete parsed store used to evaluate the theorems below: a `CLI`
section with two keys and one unrelated section. -/
def storeW : Store :=
  [("CLI", [("other_key", "1"), ("frame_rate", "15")]),
   ("logger", [("verbosity", "2")])]

/-- A concrete incoming mapping touching only `frame_rate`. -/
def cfgW : List (String × CfgValue) := [("frame_rate", CfgValue.scalar "30")]

/-- The store obtained by applying `update_cfg cfgW` to `storeW`. -/
def storeW1 : Store :=
  [("CLI", [("other_key", "1"), ("frame_rate", "30")]),
   ("logger", [("verbosity", "2")])]

theorem lookupKey_setKey (sec : CfgSection) (k v q : String) :
    lookupKey (setKey sec k v) q = if q = k then some v else lookupKey sec q := by
  induction sec with
  | nil =>
    by_cases h : q = k
    · subst h; simp [setKey, lookupKey]
    · simp [setKey, lookupKey, h, Ne.symm h]
  | cons head rest ih =>
    obtain ⟨k', v'⟩ := head
    by_cases h1 : k' = k
    · subst h1
      by_cases h2 : q = k'
      · subst h2; simp [setKey, lookupKey]
      · simp [setKey, lookupKey, h2, Ne.symm h2]
    · by_cases h2 : k' = q
      · subst h2
        simp [setKey, lookupKey, h1]
      · simp [setKey, lookupKey, h1, h2, ih]

theorem lookupKey_applyEntry (sec : CfgSection) (k : String) (v : CfgValue)
    (q : String) :
    lookupKey (applyEntry sec k v) q =
      match entryWrite k v q with
      | some w => some w
      | none => lookupKey sec q := by
  by_cases hk : k = "resolution"
  · cases v with
    | pair a b =>
      by_cases h1 : q = "pixel_height"
      · simp [applyEntry, entryWrite, hk, h1, lookupKey_setKey]
      · by_cases h2 : q = "pixel_width"
        · simp [applyEntry, entryWrite, hk, h1, h2, lookupKey_setKey]
        · simp [applyEntry, entryWrite, hk, h1, h2, lookupKey_setKey]
    | scalar s =>
      by_cases h1 : q = "pixel_height"
      · simp [applyEntry, entryWrite, hk, h1, lookupKey_setKey]
      · by_cases h2 : q = "pixel_width"
        · simp [applyEntry, entryWrite, hk, h1, h2, lookupKey_setKey]
        · simp [applyEntry, entryWrite, hk, h1, h2, lookupKey_setKey]
  · by_cases h1 : q = lowerKey k
    · simp [applyEntry, entryWrite, hk, h1, lookupKey_setKey]
    · simp [applyEntry, entryWrite, hk, h1, lookupKey_setKey]

theorem lookupKey_updateSection (cfg : List (String × CfgValue)) :
    ∀ (sec : CfgSection) (q : String),
      lookupKey (updateSection sec cfg) q =
        match finalWrite q cfg with
        | some w => some w
        | none => lookupKey sec q := by
  induction cfg with
  | nil => intro sec q; simp [updateSection, finalWrite]
  | cons head rest ih =>
    intro sec q
    obtain ⟨k, v⟩ := head
    show lookupKey (updateSection (applyEntry sec k v) rest) q = _
    rw [ih]
    cases hfw : finalWrite q rest with
    | some w => simp [finalWrite, hfw]
    | none => simp [finalWrite, hfw, lookupKey_applyEntry]

theorem entryWrite_eq_none (k : String) (v : CfgValue) (q : String)
    (h : q ∉ (if k = "resolution" then ["pixel_width", "pixel_height"]
              else [lowerKey k])) :
    entryWrite k v q = none := by
  by_cases hk : k = "resolution"
  · simp [hk] at h
    simp [entryWrite, hk, h.1, h.2]
  · simp [hk] at h
    simp [entryWrite, hk, h]

theorem finalWrite_eq_none (cfg : List (String × CfgValue)) (q : String)
    (h : q ∉ mentionedKeys cfg) : finalWrite q cfg = none := by
  induction cfg with
  | nil => simp [finalWrite]
  | cons head rest ih =>
    obtain ⟨k, v⟩ := head
    rw [mentionedKeys, List.mem_append] at h
    push_neg at h
    simp [finalWrite, ih h.2, entryWrite_eq_none k v q h.1]

theorem storeUpdate_cons_cli (cfg : List (String × CfgValue)) (sec : CfgSection)
    (rest : Store) :
    storeUpdate cfg (("CLI", sec) :: rest) =
      ("CLI", updateSection sec cfg) :: storeUpdate cfg rest := by
  rw [storeUpdate, if_pos rfl]

theorem storeUpdate_cons_ne (cfg : List (String × CfgValue)) (n : String)
    (sec : CfgSection) (rest : Store) (hn : ¬n = "CLI") :
    storeUpdate cfg ((n, sec) :: rest) = (n, sec) :: storeUpdate cfg rest := by
  rw [storeUpdate, if_neg hn]

theorem lookupSec_storeUpdate (cfg : List (String × CfgValue)) (store : Store)
    (q : String) :
    lookupSec (storeUpdate cfg store) q =
      if q = "CLI" then
        (lookupSec store "CLI").map (fun sec => updateSection sec cfg)
      else lookupSec store q := by
  induction store with
  | nil => simp [storeUpdate, lookupSec]
  | cons head rest ih =>
    obtain ⟨n, sec⟩ := head
    by_cases hn : n = "CLI"
    · subst hn
      rw [storeUpdate_cons_cli]
      by_cases hq : q = "CLI"
      · subst hq; simp [lookupSec]
      · simp [lookupSec, hq, Ne.symm hq, ih]
    · rw [storeUpdate_cons_ne cfg n sec rest hn]
      by_cases hq : n = q
      · subst hq
        simp [lookupSec, hn]
      · simp [lookupSec, hn, hq, ih]

theorem hasSection_storeUpdate (cfg : List (String × CfgValue)) (store : Store) :
    hasSection (storeUpdate cfg store) "CLI" = hasSection store "CLI" := by
  rw [hasSection, hasSection, lookupSec_storeUpdate]
  simp

theorem updateSection_idem_lookup (cfg : List (String × CfgValue))
    (sec : CfgSection) (q : String) :
    lookupKey (updateSection (updateSection sec cfg) cfg) q =
      lookupKey (updateSection sec cfg) q := by
  rw [lookupKey_updateSection, lookupKey_updateSection]
  cases hfw : finalWrite q cfg <;> simp [hfw]

/-- C6: `update_cfg` requires that the parsed store already contains the
`CLI` section; exactly when it does not, the call fails with the missing
section error, and the `Except`-valued embedding returns no store at all in
that case (no partial write). -/
theorem update_cfg_missing_section_iff (cfg : List (String × CfgValue))
    (store : Store) :
    update_cfg cfg store = Except.error CfgError.missingSection ↔
      hasSection store "CLI" = false := by
  cases hs : hasSection store "CLI" <;> simp [update_cfg, hs]

/-- C4: after a successful `update_cfg`, every section other than `CLI` is
unchanged, and every key of the `CLI` section not mentioned by the incoming
config (the `resolution` entry counting as mentioning `pixel_width` and
`pixel_height`) keeps its prior value. -/
theorem update_cfg_preserves_unrelated (cfg : List (String × CfgValue))
    (store store1 : Store) (h : update_cfg cfg store = Except.ok store1) :
    (∀ n, n ≠ "CLI" → lookupSec store1 n = lookupSec store n) ∧
    (∀ q, q ∉ mentionedKeys cfg →
      lookupStore store1 "CLI" q = lookupStore store "CLI" q) := by
  have hs : hasSection store "CLI" = true := by
    cases hsb : hasSection store "CLI"
    · rw [update_cfg] at h; rw [hsb] at h; simp at h
    · rfl
  rw [update_cfg] at h; rw [hs] at h; simp at h
  subst h
  constructor
  · intro n hn
    rw [lookupSec_storeUpdate, if_neg hn]
  · intro q hq
    have hfw := finalWrite_eq_none cfg q hq
    cases hsec : lookupSec store "CLI" with
    | none => simp [lookupStore, lookupSec_storeUpdate, hsec]
    | some sec =>
      simp [lookupStore, lookupSec_storeUpdate, hsec, lookupKey_updateSection, hfw]

/-- C5: `update_cfg` is idempotent: a second application of the same config
succeeds and yields a store with the same key/value set, while sections other
than `CLI` are identical before and after both applications. -/
theorem update_cfg_idempotent (cfg : List (String × CfgValue))
    (store store1 : Store) (n q : String)
    (h : update_cfg cfg store = Except.ok store1) :
    ∃ store2, update_cfg cfg store1 = Except.ok store2 ∧
      lookupStore store2 n q = lookupStore store1 n q ∧
      (n ≠ "CLI" → lookupSec store2 n = lookupSec store n) := by
  have hs : hasSection store "CLI" = true := by
    cases hsb : hasSection store "CLI"
    · rw [update_cfg] at h; rw [hsb] at h; simp at h
    · rfl
  rw [update_cfg] at h; rw [hs] at h; simp at h
  subst h
  have hs1 : hasSection (storeUpdate cfg store) "CLI" = true := by
    rw [hasSection_storeUpdate]; exact hs
  refine ⟨storeUpdate cfg (storeUpdate cfg store), ?_, ?_, ?_⟩
  · rw [update_cfg]; rw [hs1]; simp
  · by_cases hn : n = "CLI"
    · subst hn
      cases hsec : lookupSec store "CLI" with
      | none => simp [lookupStore, lookupSec_storeUpdate, hsec]
      | some sec =>
        simp [lookupStore, lookupSec_storeUpdate, hsec, updateSection_idem_lookup]
    · simp [lookupStore, lookupSec_storeUpdate, hn]
  · intro hn
    rw [lookupSec_storeUpdate, if_neg hn, lookupSec_storeUpdate, if_neg hn]

/-- Witness for C4: evaluating the preservation theorem on `storeW`/`cfgW`. -/
theorem update_cfg_preserves_unrelated_witness :
    lookupSec storeW1 "logger" = lookupSec storeW "logger" ∧
    lookupStore storeW1 "CLI" "other_key" = lookupStore storeW "CLI" "other_key" :=
  ⟨(update_cfg_preserves_unrelated cfgW storeW storeW1 (by rfl)).1 "logger" (by decide),
   (update_cfg_preserves_unrelated cfgW storeW storeW1 (by rfl)).2 "other_key" (by decide)⟩

/-- Witness for C5: evaluating the idempotence theorem on `storeW`/`cfgW`. -/
theorem update_cfg_idempotent_witness :
    ∃ store2, update_cfg cfgW storeW1 = Except.ok store2 ∧
      lookupStore store2 "CLI" "frame_rate" = lookupStore storeW1 "CLI" "frame_rate" ∧
      ("CLI" ≠ "CLI" → lookupSec store2 "CLI" = lookupSec storeW "CLI") :=
  update_cfg_idempotent cfgW storeW storeW1 "CLI" "frame_rate" (by rfl)

/-- C1 (evidence of the code bug): on the interactive path the selected
`480p` tier is returned by `select_resolution` as the pair `(480, 854)`,
ordered (height, width), and persisting a config whose `resolution` entry is
that pair writes `pixel_width = "480"` (the height) and
`pixel_height = "854"` (the width) — not `pixel_width = 854`,
`pixel_height = 480` as the claim states for the tier of height 480 and
width 854. -/
theorem interactive_resolution_swapped :
    select_resolution qualitiesSpec "480p" = some (480, 854) ∧
    update_cfg [("resolution", CfgValue.pair 480 854)] [("CLI", [])] =
      Except.ok [("CLI", [("pixel_width", "480"), ("pixel_height", "854")])] ∧
    lookupStore (storeUpdate [("resolution", CfgValue.pair 480 854)]
      [("CLI", [])]) "CLI" "pixel_width" = some "480" :=
  ⟨rfl, rfl, rfl⟩

/-- C2 (evidence of the code bug): with no `main.py` present, the no-target
branch of `scene` does not fail — append mode creates `main.py` holding the
separator plus the rendered stub, contrary to the claim (and to the code's
own comment) that a missing default target stops the operation with a
not-found error. -/
theorem sceneDefault_creates_missing_target :
    lookupKey (sceneDefault [] "class MyScene(Scene):") "main.py" =
      some ("\n\n\n" ++ "class MyScene(Scene):") := rfl

/-- C3: explicit-target insertion appends the three-newline separator plus
the rendered text to an existing file without invoking the import-injection
collaborator; on a missing target it creates the file with exactly that
content and invokes the collaborator on it exactly once; every other file is
untouched. -/
theorem insertScene_spec (fs : FileSys) (target rendered : String) :
    (∀ c, lookupKey fs target = some c →
      (insertScene fs target rendered).2 = [] ∧
      lookupKey (insertScene fs target rendered).1 target =
        some (c ++ "\n\n\n" ++ rendered)) ∧
    (lookupKey fs target = none →
      (insertScene fs target rendered).2 = [target] ∧
      lookupKey (insertScene fs target rendered).1 target =
        some ("\n\n\n" ++ rendered)) ∧
    (∀ p, p ≠ target →
      lookupKey (insertScene fs target rendered).1 p = lookupKey fs p) := by
  refine ⟨?_, ?_, ?_⟩
  · intro c hc
    simp [insertScene, hc, lookupKey_setKey]
  · intro hc
    simp [insertScene, hc, lookupKey_setKey]
  · intro p hp
    cases hc : lookupKey fs target with
    | some c => simp [insertScene, hc, lookupKey_setKey, hp]
    | none => simp [insertScene, hc, lookupKey_setKey, hp]

/-- Witness for C3: creating a fresh `demo.py` writes the separator plus the
stub and invokes the collaborator once. -/
theorem insertScene_spec_witness :
    (insertScene [] "demo.py" "X").2 = ["demo.py"] ∧
    lookupKey (insertScene [] "demo.py" "X").1 "demo.py" =
      some ("\n\n\n" ++ "X") :=
  (insertScene_spec [] "demo.py" "X").2.1 rfl

/-- C7: a second `project` call with the name used by a successful first call
finds the created directory, stops with the already-exists outcome, performs
no effect, and leaves the directory set unchanged. -/
theorem project_second_call_fails (dirs : List String)
    (name tmpl1 tmpl2 : String) (ds1 c1 ds2 c2 : Bool) (h : name ∉ dirs) :
    (runProject dirs name tmpl1 ds1 c1).1 = name :: dirs ∧
    runProject (runProject dirs name tmpl1 ds1 c1).1 name tmpl2 ds2 c2 =
      ((runProject dirs name tmpl1 ds1 c1).1, [],
        some ProjError.alreadyExists) := by
  have h1 : (runProject dirs name tmpl1 ds1 c1).1 = name :: dirs := by
    simp only [runProject]
    rw [if_neg h]
    cases ds1 <;> cases c1 <;> simp
  refine ⟨h1, ?_⟩
  rw [h1]
  simp only [runProject]
  rw [if_pos (List.mem_cons_self name dirs)]

/-- Witness for C7 on a concrete fresh project name. -/
theorem project_second_call_fails_witness :
    (runProject [] "proj" "Default" true true).1 = ["proj"] ∧
    runProject (runProject [] "proj" "Default" true true).1 "proj" "Default"
        true true =
      ((runProject [] "proj" "Default" true true).1, [],
        some ProjError.alreadyExists) :=
  project_second_call_fails [] "proj" "Default" "Default" true true true true
    (by simp)

/-- C8: on the interactive path with a fresh name, declining the confirmation
aborts right after the directory creation and the confirmation request: no
template copy, no config write, and the created directory stays in the
directory set. -/
theorem project_decline_aborts (dirs : List String) (name tmpl : String)
    (h : name ∉ dirs) :
    runProject dirs name tmpl false false =
      (name :: dirs, [ProjEffect.mkdirE name, ProjEffect.confirmE],
        some ProjError.aborted) := by
  simp only [runProject]
  rw [if_neg h]
  simp

/-- Witness for C8 at a concrete fresh project name. -/
theorem project_decline_aborts_witness :
    runProject [] "proj" "Default" false false =
      (["proj"], [ProjEffect.mkdirE "proj", ProjEffect.confirmE],
        some ProjError.aborted) :=
  project_decline_aborts [] "proj" "Default" (by simp)

theorem leadsList_iff (pat : List Char) :
    ∀ s : List Char, leadsList pat s = true ↔ ∃ t, s = pat ++ t := by
  induction pat with
  | nil =>
    intro s
    constructor
    · intro _; exact ⟨s, rfl⟩
    · intro _; rfl
  | cons p ps ih =>
    intro s
    cases s with
    | nil =>
      constructor
      · intro h; cases h
      · intro ⟨t, ht⟩; cases ht
    | cons c cs =>
      rw [leadsList]
      by_cases hc : p = c
      · subst hc
        rw [if_pos rfl]
        constructor
        · intro h
          obtain ⟨t, ht⟩ := (ih cs).1 h
          exact ⟨t, by rw [ht]; rfl⟩
        · intro ⟨t, ht⟩
          injection ht with _ h2
          exact (ih cs).2 ⟨t, h2⟩
      · rw [if_neg hc]
        constructor
        · intro h; cases h
        · intro ⟨t, ht⟩
          injection ht with h1 _
          exact absurd h1.symm hc

theorem pyReplaceFirst_no_occurrence (pat rep : List Char) :
    ∀ s : List Char, occursIn pat s = false → pyReplaceFirst pat rep s = s := by
  intro s
  induction s with
  | nil =>
    intro h
    rw [occursIn] at h
    rw [pyReplaceFirst, if_neg (by simp [h])]
  | cons c cs ih =>
    intro h
    rw [occursIn, Bool.or_eq_false_iff] at h
    rw [pyReplaceFirst, if_neg (by simp [h.1]), ih h.2]

theorem pyReplaceFirst_decomp (pat rep : List Char) :
    ∀ s : List Char, occursIn pat s = true →
      ∃ pre post, s = pre ++ pat ++ post ∧
        pyReplaceFirst pat rep s = pre ++ rep ++ post ∧
        ∀ pre' post', s = pre' ++ pat ++ post' → pre.length ≤ pre'.length := by
  intro s
  induction s with
  | nil =>
    intro h
    rw [occursIn] at h
    have hpat : pat = [] := by
      obtain ⟨t, ht⟩ := (leadsList_iff pat []).1 h
      cases hp : pat with
      | nil => rfl
      | cons p ps => rw [hp] at ht; cases ht
    subst hpat
    refine ⟨[], [], rfl, ?_, ?_⟩
    · rw [pyReplaceFirst, if_pos (by rw [leadsList])]
      simp
    · intro pre' post' h'
      simp
  | cons c cs ih =>
    intro h
    by_cases hl : leadsList pat (c :: cs) = true
    · obtain ⟨t, ht⟩ := (leadsList_iff pat (c :: cs)).1 hl
      refine ⟨[], t, by simpa using ht, ?_, ?_⟩
      · rw [pyReplaceFirst, if_pos hl, ht, List.drop_left]
        rfl
      · intro pre' post' h'
        simp
    · rw [occursIn] at h
      have h2 : occursIn pat cs = true := by
        cases ho : occursIn pat cs
        · rw [ho, Bool.or_false] at h; exact absurd h hl
        · rfl
      obtain ⟨pre, post, hdec, hrepl, hmin⟩ := ih h2
      refine ⟨c :: pre, post, by simp [hdec], ?_, ?_⟩
      · rw [pyReplaceFirst, if_neg hl, hrepl]
        rfl
      · intro pre' post' h'
        cases pre' with
        | nil =>
          exfalso
          exact hl ((leadsList_iff pat (c :: cs)).2 ⟨post', by simpa using h'⟩)
        | cons c' pre'' =>
          rw [List.cons_append, List.cons_append] at h'
          injection h' with hc1 hc2
          simpa using Nat.succ_le_succ (hmin pre'' post' hc2)

/-- C9: rendering replaces exactly the leftmost occurrence of
`templateName ++ "Template"` — the stub text decomposes at that occurrence,
the replacement keeps everything after it (hence any later occurrence)
verbatim — and when no occurrence exists the stub text is returned unchanged
with no error. -/
theorem renderStub_first_occurrence
    (stubText templateName newSceneName : String) :
    (occursIn (templateName ++ "Template").data stubText.data = false →
      renderStub stubText templateName newSceneName = stubText) ∧
    (occursIn (templateName ++ "Template").data stubText.data = true →
      ∃ pre post,
        stubText.data = pre ++ (templateName ++ "Template").data ++ post ∧
        (renderStub stubText templateName newSceneName).data =
          pre ++ newSceneName.data ++ post ∧
        ∀ pre' post',
          stubText.data = pre' ++ (templateName ++ "Template").data ++ post' →
          pre.length ≤ pre'.length) := by
  constructor
  · intro h
    rw [renderStub,
      pyReplaceFirst_no_occurrence (templateName ++ "Template").data
        newSceneName.data stubText.data h]
  · intro h
    exact pyReplaceFirst_decomp (templateName ++ "Template").data
      newSceneName.data stubText.data h

/-- Witness for C9: a stub with no placeholder occurrence is unchanged. -/
theorem renderStub_first_occurrence_witness :
    occursIn ("Default" ++ "Template").data "x".data = false ∧
    renderStub "x" "Default" "My" = "x" :=
  ⟨by decide, (renderStub_first_occurrence "x" "Default" "My").1 (by decide)⟩

theorem rfindChar_lt_length (c : Char) :
    ∀ (l : List Char) (i : Nat), rfindChar c l = some i → i < l.length := by
  intro l
  induction l with
  | nil => intro i h; cases h
  | cons a as ih =>
    intro i h
    rw [rfindChar] at h
    cases hr : rfindChar c as with
    | some j =>
      rw [hr] at h
      injection h with h1
      subst h1
      exact Nat.succ_lt_succ (ih j hr)
    | none =>
      rw [hr] at h
      by_cases ha : a = c
      · rw [if_pos ha] at h
        injection h with h1
        subst h1
        exact Nat.succ_pos as.length
      · rw [if_neg ha] at h
        cases h

theorem pyWithSuffix_own (name s : List Char) :
    pyWithSuffix name (pySuffix name ++ s) = name ++ s := by
  rw [pyWithSuffix]
  suffices h : name.take (name.length - (pySuffix name).length) ++ pySuffix name
      = name by
    rw [← List.append_assoc, h]
  cases hr : rfindChar '.' name with
  | none =>
    have hps : pySuffix name = [] := by simp [pySuffix, hr]
    rw [hps]
    simp
  | some i =>
    by_cases hc : 0 < i ∧ i < name.length - 1
    · have hps : pySuffix name = name.drop i := by
        simp only [pySuffix, hr]
        rw [if_pos hc]
      rw [hps]
      have hi : i < name.length := rfindChar_lt_length '.' name i hr
      rw [List.length_drop, Nat.sub_sub_self (le_of_lt hi),
        List.take_append_drop]
    · have hps : pySuffix name = [] := by
        simp only [pySuffix, hr]
        rw [if_neg hc]
      rw [hps]
      simp

/-- C10: the explicit-target name actually used by `scene` is the given name
with `.py` appended after its existing suffix, never replacing that suffix; a
name already ending in `.py` is used as-is.  In particular `demo.txt` becomes
`demo.txt.py`, `demo` becomes `demo.py`, and `demo.py` stays `demo.py`. -/
theorem sceneTargetName_appends :
    (∀ name : List Char,
      sceneTargetName name =
        if pySuffix name = ".py".data then name else name ++ ".py".data) ∧
    sceneTargetName "demo.txt".data = "demo.txt.py".data ∧
    sceneTargetName "demo".data = "demo.py".data ∧
    sceneTargetName "demo.py".data = "demo.py".data := by
  refine ⟨?_, by decide, by decide, by decide⟩
  intro name
  rw [sceneTargetName]
  by_cases h : pySuffix name = ".py".data
  · rw [if_pos h, if_pos h]
  · rw [if_neg h, if_neg h, pyWithSuffix_own]
